import Mathlib

/-!
Verification of the MC-Dropout active-learning core of the modAL repository
(`modAL/dropout.py`, `modAL/utils/data.py`) against its natural-language
specification.

The embedding is shallow:

* PyTorch modules are flattened to the list produced by `model.modules()`;
  each entry keeps its class name and its `training` flag (the only state
  `set_dropout_mode` touches).
* Python exceptions are values of the `PyError` inductive; a function that can
  raise returns `Except PyError _` and, where the caller can observe the
  mutated module list after an exception (Python mutates in place), the
  function returns the final module list alongside the `Except` result.
* NumPy float arrays are modelled at real-number precision: a scalar is an
  `Option ℝ` where `none` stands for NaN.  A per-cycle prediction array of
  shape `[N, C]` is a function `Fin N → Fin C → Option ℝ`, and the cycle list
  is a `List` of those; a reduction "along axis -1" becomes a reduction of the
  `List (Option ℝ)` obtained by collecting the reduced axis.
* `classifier.estimator.infer` and `np.vstack`/`skorch.to_numpy` are external
  collaborators and are taken as parameters of `get_predictions`.
-/

set_option autoImplicit false

namespace ModAL

/-- Python exception classes that the modelled code can raise.  `keyError`
carries the offending layer index (the source formats it into the message);
`configurationError` is the spec's taxonomy name, used only by definitions
modelled from the spec for source files absent from `src/`. -/
inductive PyError where
  | keyError (index : ℕ)
  | indexError (index : ℕ)
  | runtimeError (msg : String)
  | typeError (msg : String)
  | valueError (msg : String)
  | configurationError (msg : String)
  deriving DecidableEq, Repr

/-- Whether an exception is of Python class `TypeError`. -/
def PyError.isTypeErrorClass : PyError → Bool
  | .typeError _ => true
  | _ => false

/-- One entry of `list(model.modules())`: its class name (as used by
`layer.__class__.__name__`) and its `training` flag.  `layer.train()` /
`layer.eval()` set the flag to `true` / `false`. -/
structure Module where
  className : String
  training : Bool
  deriving DecidableEq, Repr

/-- Test used by `set_dropout_mode`: `__class__.__name__.startswith('Dropout')`,
stated on the underlying character sequences. -/
def isDropoutName (s : String) : Bool :=
  "Dropout".data.isPrefixOf s.data

/-- Sets the `training` flag of a module, as `layer.train()` / `layer.eval()`. -/
def setLayerMode (m : Module) (train : Bool) : Module :=
  { m with training := train }

/-- Whether index `i` of the module list resolves to a dropout-named layer. -/
def isDropoutAt (modules : List Module) (i : ℕ) : Bool :=
  match modules[i]? with
  | some m => isDropoutName m.className
  | none => false

/-- The explicit-index loop of `set_dropout_mode` (dropout.py lines 511-519):
for each listed index resolve the layer, toggle it if it is a dropout layer,
otherwise raise `KeyError` naming the index.  Python mutates the module list in
place, so the partially updated list is returned together with the error. -/
def applyIndexes : List Module → List ℕ → Bool → List Module × Option PyError
  | modules, [], _ => (modules, none)
  | modules, i :: rest, tm =>
    match modules[i]? with
    | some layer =>
      if isDropoutName layer.className then
        applyIndexes (modules.set i (setLayerMode layer tm)) rest tm
      else
        (modules, some (.keyError i))
    | none => (modules, some (.indexError i))

/-- Model of `set_dropout_mode` (dropout.py lines 501-527).  Non-empty index
list: toggle exactly the listed layers, raising on a non-dropout index.  Empty
index list: toggle every layer whose class name starts with `Dropout`. -/
def set_dropout_mode (modules : List Module) (dropout_layer_indexes : List ℕ)
    (train_mode : Bool) : List Module × Option PyError :=
  if dropout_layer_indexes.length ≠ 0 then
    applyIndexes modules dropout_layer_indexes train_mode
  else
    (modules.map fun m =>
      if isDropoutName m.className then setLayerMode m train_mode else m, none)

/-- Input pool accepted by `get_predictions`: a dict of named tensors, a single
tensor (a tensor is its list of rows), or any other Python object (carrying
only its type name), which the source rejects. -/
inductive MInput (ρ : Type) where
  | mapping (entries : List (String × List ρ))
  | tensor (rows : List ρ)
  | other (typeName : String)

/-- Model of `torch.split(v, k)`: consecutive chunks of at most `k` rows, in
order.  (For `k = 0` torch raises; the model returns `[]`, a case no claim
exercises.) -/
def torch_split {ρ : Type} (l : List ρ) (k : ℕ) : List (List ρ) :=
  (List.range ((l.length + k - 1) / k)).map fun i => (l.drop (i * k)).take k

/-- One forward-pass argument: a sub-dictionary (mapping input) or a tensor
chunk (tensor input). -/
inductive Chunk (ρ : Type) where
  | dict (entries : List (String × List ρ))
  | tens (rows : List ρ)

/-- The mapping-splitting loop of `get_predictions` (lines 303-312): the
chunks of value `v` under key `k` are appended entrywise onto the running list
of per-pass sub-dictionaries, creating new sub-dictionaries where needed. -/
def addChunks {ρ : Type} :
    List (List (String × List ρ)) → String → List (List ρ) →
      List (List (String × List ρ))
  | args, _, [] => args
  | [], k, c :: cs => [(k, c)] :: addChunks [] k cs
  | a :: as, k, c :: cs => (a ++ [(k, c)]) :: addChunks as k cs

/-- The inner chunk loop of one dropout cycle (lines 349-365): run `infer` on
every chunk in order and fold the chunk outputs with `np.vstack`, starting
from `None`.  An inference error propagates immediately. -/
def cycleOnce {ρ π : Type} (chunks : List (Chunk ρ))
    (infer : Chunk ρ → Except PyError π) (vstack : π → π → π) :
    Option π → Except PyError (Option π)
  | acc =>
    match chunks with
    | [] => .ok acc
    | c :: cs =>
      match infer c with
      | .error e => .error e
      | .ok pred =>
        cycleOnce cs infer vstack
          (some (match acc with
                 | none => pred
                 | some a => vstack a pred))

/-- The cycle loop of `get_predictions` (lines 326-367): `num` repetitions of
`cycleOnce`, collecting each cycle's folded array (possibly `None` when there
were no chunks) in order. -/
def runAllCycles {ρ π : Type} (chunks : List (Chunk ρ))
    (infer : Chunk ρ → Except PyError π) (vstack : π → π → π) (num : ℕ) :
    Except PyError (List (Option π)) :=
  (List.range num).foldlM
    (fun acc _ =>
      match cycleOnce chunks infer vstack none with
      | .error e => .error e
      | .ok p => .ok (acc ++ [p]))
    []

/-- The tail of `get_predictions` after input splitting: run all cycles, then
restore the dropout layers to eval mode, then return the duplicated
prediction-list pair (line 380 returns `predictions_1, predictions_1`).  There
is no `try`/`finally` in the source: an inference error propagates with the
modules still in the state set before the cycles ran. -/
def runCycles {ρ π : Type} (modules : List Module) (idxs : List ℕ)
    (chunks : List (Chunk ρ)) (infer : Chunk ρ → Except PyError π)
    (vstack : π → π → π) (num : ℕ) :
    List Module × Except PyError (List (Option π) × List (Option π)) :=
  match runAllCycles chunks infer vstack num with
  | .error e => (modules, .error e)
  | .ok preds =>
    match set_dropout_mode modules idxs false with
    | (m2, some e) => (m2, .error e)
    | (m2, none) => (m2, .ok (preds, preds))

/-- Model of `get_predictions` (dropout.py lines 268-380).  Sets the targeted
dropout layers to train mode, splits the input (raising `RuntimeError` for an
unsupported input type), runs `num_predictions` dropout cycles without
gradient tracking, restores eval mode, and returns the prediction list twice.
The final module list is returned on every path, mirroring in-place mutation. -/
def get_predictions {ρ π : Type} (modules : List Module) (X : MInput ρ)
    (dropout_layer_indexes : List ℕ) (num_predictions : ℕ)
    (sample_per_forward_pass : ℕ) (infer : Chunk ρ → Except PyError π)
    (vstack : π → π → π) :
    List Module × Except PyError (List (Option π) × List (Option π)) :=
  match set_dropout_mode modules dropout_layer_indexes true with
  | (m1, some e) => (m1, .error e)
  | (m1, none) =>
    match X with
    | .mapping entries =>
      let split_args := entries.foldl
        (fun acc kv => addChunks acc kv.1 (torch_split kv.2 sample_per_forward_pass)) []
      runCycles m1 dropout_layer_indexes (split_args.map Chunk.dict) infer vstack
        num_predictions
    | .tensor t =>
      runCycles m1 dropout_layer_indexes
        ((torch_split t sample_per_forward_pass).map Chunk.tens) infer vstack
        num_predictions
    | .other _ =>
      (m1, .error (.runtimeError "Error in model data type, only dict or tensors supported"))

/-! ## NumPy-level model of the metric aggregators

A NumPy float is modelled as an `Option ℝ`, `none` playing the role of NaN.
`scipy.special.entr` returns `-∞` for negative inputs; `-∞` is not
representable at real precision, so the model maps that branch to `none` as
well — every claim constrains the aggregator inputs to NaN-or-nonnegative
values, where the model agrees exactly with `entr`.  A stacked `[N, C, T]`
tensor is accessed through `stackedAt`, which returns the length-`T` list
along the trailing (cycle) axis; reductions "along axis -1" over the class
axis go through `classList`, the row of a `Fin C`-indexed array as a list. -/

/-- Model of `np.isnan` on an optional real. -/
def isnan (v : Option ℝ) : Bool :=
  v.isNone

/-- Model of `scipy.special.entr` at real precision: `-x·ln x` for `x ≥ 0`
(`Real.negMulLog`, which gives the `0·ln 0 = 0` convention at `0`), NaN for
NaN.  (For `x < 0` scipy returns `-∞`; see the section comment.) -/
noncomputable def entr : Option ℝ → Option ℝ
  | none => none
  | some x => if x < 0 then none else some (Real.negMulLog x)

/-- Model of `np.sum(a, where=~np.isnan(a), axis=-1)` along a collected axis:
the masked-out entries contribute the additive identity, so the result is a
real number even when every entry is NaN (then it is `0`). -/
def whereSum (l : List (Option ℝ)) : ℝ :=
  (l.filterMap id).sum

/-- Model of `entropy_sum` (dropout.py lines 382-385): apply `entr`
elementwise, then sum the non-NaN entries along the reduced axis. -/
noncomputable def entropy_sum (l : List (Option ℝ)) : ℝ :=
  whereSum (l.map entr)

/-- Model of `np.mean(a, where=~np.isnan(a), axis=-1)`: the sum of the
non-NaN entries divided by their count; NaN when every entry is NaN (NumPy
emits `0/0`). -/
noncomputable def whereMean (l : List (Option ℝ)) : Option ℝ :=
  if (l.filterMap id).length = 0 then none
  else some ((l.filterMap id).sum / (l.filterMap id).length)

/-- Model of plain `np.sum(a, axis=-1)`: NaN propagates. -/
def plainSum (l : List (Option ℝ)) : Option ℝ :=
  if l.all Option.isSome then some (l.filterMap id).sum else none

/-- Model of plain `np.mean(a, axis=-1)`: NaN propagates, and the mean of an
empty axis is NaN. -/
noncomputable def plainMean (l : List (Option ℝ)) : Option ℝ :=
  if l.length = 0 then none else (plainSum l).map (· / (l.length : ℝ))

/-- Model of `np.amax(a, initial=i, where=~np.isnan(a), axis=-1)`: the maximum
of the non-NaN entries and the initial value, which is also the result when
every entry is NaN. -/
def whereAmax (init : ℝ) (l : List (Option ℝ)) : ℝ :=
  (l.filterMap id).foldl max init

/-- Model of array subtraction on scalars: NaN propagates. -/
def osub : Option ℝ → Option ℝ → Option ℝ
  | some x, some y => some (x - y)
  | _, _ => none

/-- Model of `np.std(a, axis=-1)` (population standard deviation, `ddof=0`):
NaN if the axis is empty or contains NaN. -/
noncomputable def nstd (l : List (Option ℝ)) : Option ℝ :=
  if l.length = 0 ∨ ¬ l.all Option.isSome then none
  else
    some (Real.sqrt
      ((((l.filterMap id).map
          fun x => (x - (l.filterMap id).sum / ((l.filterMap id).length : ℝ)) ^ 2).sum)
        / ((l.filterMap id).length : ℝ)))

/-- A per-cycle prediction array of shape `[N, C]`; `none` entries are NaN. -/
abbrev Mat (N C : ℕ) :=
  Fin N → Fin C → Option ℝ

/-- Trailing-axis slice `proba_stacked[n, c, :]` of
`np.stack(proba, axis=len(proba[0].shape))`: the per-cycle values at instance
`n`, class `c`, in cycle order. -/
def stackedAt {N C : ℕ} (proba : List (Mat N C)) (n : Fin N) (c : Fin C) :
    List (Option ℝ) :=
  proba.map fun A => A n c

/-- A `Fin C`-indexed row collected into a list, for class-axis reductions. -/
def classList {C : ℕ} {α : Type} (f : Fin C → α) : List α :=
  (List.finRange C).map f

/-- Model of `_mean_standard_deviation` (dropout.py lines 387-407): per-class
standard deviation along the cycle axis, then NaN-aware mean along the class
axis. -/
noncomputable def _mean_standard_deviation {N C : ℕ} (proba : List (Mat N C))
    (n : Fin N) : Option ℝ :=
  whereMean (classList fun c => nstd (stackedAt proba n c))

/-- Model of `_entropy` (dropout.py lines 409-429): `entropy_sum` along the
cycle axis (`axis=-1` of the stacked tensor), then NaN-aware mean along the
class axis.  The `entropy_sum` output is never NaN, so the class-axis `where`
mask of the source is the full mask; the model keeps it through `whereMean`. -/
noncomputable def _entropy {N C : ℕ} (proba : List (Mat N C)) (n : Fin N) :
    Option ℝ :=
  whereMean (classList fun c => some (entropy_sum (stackedAt proba n c)))

/-- Model of `_variation_ratios` (dropout.py lines 431-449): plain mean along
the cycle axis, then one minus the NaN-ignoring class-axis maximum with
initial value `0`. -/
noncomputable def _variation_ratios {N C : ℕ} (proba : List (Mat N C))
    (n : Fin N) : ℝ :=
  1 - whereAmax 0 (classList fun c => plainMean (stackedAt proba n c))

/-- Per-class expected entropy `f_x` of `_bald_divergence` (lines 468-469):
cycle-axis `entropy_sum` divided by the number of cycles. -/
noncomputable def bald_f {N C : ℕ} (proba : List (Mat N C)) (n : Fin N)
    (c : Fin C) : ℝ :=
  entropy_sum (stackedAt proba n c) / (proba.length : ℝ)

/-- Per-class cycle-averaged score of `_bald_divergence` (lines 472-475):
plain cycle-axis sum divided by the number of cycles. -/
noncomputable def bald_avg {N C : ℕ} (proba : List (Mat N C)) (n : Fin N)
    (c : Fin C) : Option ℝ :=
  (plainSum (stackedAt proba n c)).map (· / (proba.length : ℝ))

/-- Per-class entropy of the average `g_x` of `_bald_divergence` (line 478):
`entropy_sum` over the expanded singleton axis holding the average. -/
noncomputable def bald_g {N C : ℕ} (proba : List (Mat N C)) (n : Fin N)
    (c : Fin C) : ℝ :=
  entropy_sum [bald_avg proba n c]

/-- Model of `_bald_divergence` (dropout.py lines 451-487): the difference
`g_x − f_x`, flattened over the non-instance axes (the class axis for `[N,C]`
input) and summed NaN-aware. -/
noncomputable def _bald_divergence {N C : ℕ} (proba : List (Mat N C))
    (n : Fin N) : ℝ :=
  whereSum (classList fun c => osub (some (bald_g proba n c)) (some (bald_f proba n c)))

/-! ## Query-strategy level -/

/-- Validity check performed by `np.stack` on the cycle list handed to an
aggregator: stacking fails on an empty list (`ValueError`) and on a list
containing `None` (`TypeError`); otherwise the aggregators receive the
unwrapped arrays. -/
def seqCycles {π : Type} (l : List (Option π)) : Except PyError (List π) :=
  if l.length = 0 then .error (.valueError "need at least one array to stack")
  else
    match l.mapM id with
    | some ms => .ok ms
    | none => .error (.typeError "expected an array, got None")

open Classical in
/-- Descending insertion by score, stable on ties (earlier index first). -/
noncomputable def insertDesc {N : ℕ} (values : Fin N → ℝ) (i : Fin N) :
    List (Fin N) → List (Fin N)
  | [] => [i]
  | j :: rest =>
    if values j ≤ values i then i :: j :: rest else j :: insertDesc values i rest

/-- Indices sorted by descending score. -/
noncomputable def sortDesc {N : ℕ} (values : Fin N → ℝ) (l : List (Fin N)) :
    List (Fin N) :=
  l.foldr (insertDesc values) []

/-- Modelled from the spec: `multi_argmax` lives in `modAL/utils/selection.py`,
which is absent from `src/`.  Per the spec (§4.4, §7) it selects the top
`n_instances` indices by descending score with index-order tie-breaking and
returns them with their scores, and `n_instances` exceeding the pool size is a
`ConfigurationError`. -/
noncomputable def multi_argmax {N : ℕ} (values : Fin N → ℝ) (n_instances : ℕ) :
    Except PyError (List (Fin N) × List ℝ) :=
  if N < n_instances then .error (.configurationError "n_instances exceeds pool size")
  else
    let chosen := (sortDesc values (List.finRange N)).take n_instances
    .ok (chosen, chosen.map values)

/-- Modelled from the spec: `shuffled_argmax` of `modAL/utils/selection.py`
(absent from `src/`) is `multi_argmax` after a uniform shuffle of the index
order, abstracted here by the `shuffle` parameter; the pool-size check is the
same. -/
noncomputable def shuffled_argmax {N : ℕ} (shuffle : List (Fin N) → List (Fin N))
    (values : Fin N → ℝ) (n_instances : ℕ) :
    Except PyError (List (Fin N) × List ℝ) :=
  if N < n_instances then .error (.configurationError "n_instances exceeds pool size")
  else
    let chosen := (sortDesc values (shuffle (List.finRange N))).take n_instances
    .ok (chosen, chosen.map values)

/-- Model of `mc_dropout_bald` (dropout.py lines 77-130): one `get_predictions`
call, the two returned prediction streams stacked and scored by
`_bald_divergence`, the two score vectors averaged, and the top `n_instances`
selected by `multi_argmax` (or `shuffled_argmax` under `random_tie_break`). -/
noncomputable def mc_dropout_bald {ρ : Type} {N C : ℕ} (modules : List Module)
    (X : MInput ρ) (n_instances : ℕ) (random_tie_break : Bool)
    (dropout_layer_indexes : List ℕ) (num_cycles : ℕ)
    (sample_per_forward_pass : ℕ) (infer : Chunk ρ → Except PyError (Mat N C))
    (vstack : Mat N C → Mat N C → Mat N C)
    (shuffle : List (Fin N) → List (Fin N)) :
    List Module × Except PyError (List (Fin N) × List ℝ) :=
  match get_predictions modules X dropout_layer_indexes num_cycles
      sample_per_forward_pass infer vstack with
  | (m1, .error e) => (m1, .error e)
  | (m1, .ok (p1, p2)) =>
    match seqCycles p1 with
    | .error e => (m1, .error e)
    | .ok q1 =>
      match seqCycles p2 with
      | .error e => (m1, .error e)
      | .ok q2 =>
        let bald_scores : Fin N → ℝ := fun n =>
          (_bald_divergence q1 n + _bald_divergence q2 n) / 2
        if random_tie_break = false then (m1, multi_argmax bald_scores n_instances)
        else (m1, shuffled_argmax shuffle bald_scores n_instances)

/-- Modelled from the spec (§4.4, design note on the duplicated prediction
stream): the single-pass BALD strategy runs the sampler once and applies the
metric once to the single cycle list before top-`n` selection. -/
noncomputable def mc_dropout_bald_single {ρ : Type} {N C : ℕ}
    (modules : List Module) (X : MInput ρ) (n_instances : ℕ)
    (random_tie_break : Bool) (dropout_layer_indexes : List ℕ)
    (num_cycles : ℕ) (sample_per_forward_pass : ℕ)
    (infer : Chunk ρ → Except PyError (Mat N C))
    (vstack : Mat N C → Mat N C → Mat N C)
    (shuffle : List (Fin N) → List (Fin N)) :
    List Module × Except PyError (List (Fin N) × List ℝ) :=
  match get_predictions modules X dropout_layer_indexes num_cycles
      sample_per_forward_pass infer vstack with
  | (m1, .error e) => (m1, .error e)
  | (m1, .ok (p1, _)) =>
    match seqCycles p1 with
    | .error e => (m1, .error e)
    | .ok q1 =>
      let bald_scores : Fin N → ℝ := fun n => _bald_divergence q1 n
      if random_tie_break = false then (m1, multi_argmax bald_scores n_instances)
      else (m1, shuffled_argmax shuffle bald_scores n_instances)

/-! ## Data-container layer (`modAL/utils/data.py`) -/

/-- Top-level type of a data block, the only information `data_hstack`
dispatches on.  Payload contents are irrelevant to the dispatch and are not
modelled; the result block records which branch produced it. -/
inductive PyVal where
  | sparse
  | dataFrame
  | ndarray
  | list
  | tensor
  | other (typeName : String)
  deriving DecidableEq, Repr

/-- Model of `scipy.sparse.issparse`. -/
def issparse : PyVal → Bool
  | .sparse => true
  | _ => false

/-- Whether a block is a pandas NDFrame (Series or DataFrame; in this block
universe only a DataFrame).  `pd.concat` requires every object it is given to
be one, and raises `TypeError` otherwise. -/
def isNDFrame : PyVal → Bool
  | .dataFrame => true
  | _ => false

/-- Model of `data_hstack` (data.py lines 36-57).  The `pd.DataFrame` branch
evaluates `pd.concat(blocks, axis=1)` without returning it: when every block
is an NDFrame the concat result is computed and discarded, and when some block
is not, `pd.concat` raises `TypeError` and that exception propagates.  The
final `TypeError(...)` on line 57 is constructed but never raised, so both the
successful DataFrame case and the unsupported-first-element case fall off the
end of the function and return `None` (`.ok none` here).  Indexing `blocks[0]`
on an empty sequence raises `IndexError`. -/
def data_hstack (blocks : List PyVal) : Except PyError (Option PyVal) :=
  match blocks with
  | [] => .error (.indexError 0)
  | b0 :: _ =>
    if blocks.any issparse then .ok (some .sparse)
    else if b0 = .dataFrame then
      if blocks.all isNDFrame then .ok none
      else .error (.typeError "cannot concatenate object that is not a Series or DataFrame")
    else if b0 = .ndarray then .ok (some .ndarray)
    else if b0 = .list then .ok (some .list)
    else if b0 = .tensor then .ok (some .tensor)
    else .ok none

/-- Result classifier for claim C5: whether a call failed with a Python
`TypeError`. -/
def raisesTypeErrorClass {α : Type} : Except PyError α → Bool
  | .error e => e.isTypeErrorClass
  | .ok _ => false

/-- Modelled from the spec's words, for comparison against the source's
`_entropy` only: "per-cycle, per-class entropy contribution summed over
classes, then NaN-aware mean across cycles".  The class axis is reduced by
`entropy_sum` inside each cycle and the cycle axis by the NaN-aware mean. -/
noncomputable def entropySpec {N C : ℕ} (proba : List (Mat N C)) (n : Fin N) :
    Option ℝ :=
  whereMean (proba.map fun A => some (entropy_sum (classList fun c => A n c)))

/-! ## Supporting lemmas -/

/-- Setting a layer's mode never changes which indices are dropout layers. -/
lemma isDropoutAt_set (modules : List Module) (i j : ℕ) (tm : Bool)
    (layer : Module) (hgi : modules[i]? = some layer) :
    isDropoutAt (modules.set i (setLayerMode layer tm)) j = isDropoutAt modules j := by
  unfold isDropoutAt
  by_cases h : i = j
  · subst h
    rw [List.getElem?_set_self', hgi]
    rfl
  · rw [List.getElem?_set_ne h]

/-- The explicit-index loop raises `KeyError` at an offending index whenever
the index list contains one (all indexes being in range), and the index named
by the error is itself offending. -/
lemma applyIndexes_error (idxs : List ℕ) : ∀ (modules : List Module) (tm : Bool),
    (∀ i ∈ idxs, i < modules.length) →
    (∃ i ∈ idxs, isDropoutAt modules i = false) →
    ∃ i ∈ idxs, isDropoutAt modules i = false ∧
      (applyIndexes modules idxs tm).2 = some (.keyError i) := by
  induction idxs with
  | nil => simp
  | cons i rest ih =>
    intro modules tm hrange hbad
    have hi : i < modules.length := hrange i (List.mem_cons_self i rest)
    rcases hgi : modules[i]? with _ | layer
    · rw [List.getElem?_eq_none_iff] at hgi
      omega
    · by_cases hd : isDropoutName layer.className
      · have hAt : isDropoutAt modules i = true := by
          simp [isDropoutAt, hgi, hd]
        obtain ⟨j, hj, hjf⟩ := hbad
        have hjr : j ∈ rest := by
          rcases List.mem_cons.mp hj with hji | hjr
          · rw [hji] at hjf; rw [hjf] at hAt; cases hAt
          · exact hjr
        have hlen : (modules.set i (setLayerMode layer tm)).length = modules.length :=
          List.length_set modules i _
        have hrange' : ∀ k ∈ rest, k < (modules.set i (setLayerMode layer tm)).length := by
          intro k hk
          rw [hlen]
          exact hrange k (List.mem_cons_of_mem i hk)
        have hbad' : ∃ k ∈ rest, isDropoutAt (modules.set i (setLayerMode layer tm)) k = false :=
          ⟨j, hjr, by rw [isDropoutAt_set modules i j tm layer hgi]; exact hjf⟩
        obtain ⟨k, hk, hkf, heq⟩ := ih (modules.set i (setLayerMode layer tm)) tm hrange' hbad'
        refine ⟨k, List.mem_cons_of_mem i hk, ?_, ?_⟩
        · rw [← isDropoutAt_set modules i k tm layer hgi]
          exact hkf
        · unfold applyIndexes
          rw [hgi]
          simp only [hd, if_true]
          exact heq
      · refine ⟨i, List.mem_cons_self i rest, by simp [isDropoutAt, hgi, hd], ?_⟩
        unfold applyIndexes
        rw [hgi]
        simp [hd]

/-- A successful `runCycles` always returns the duplicated stream pair. -/
lemma runCycles_ok_eq {ρ π : Type} (modules : List Module) (idxs : List ℕ)
    (chunks : List (Chunk ρ)) (infer : Chunk ρ → Except PyError π)
    (vstack : π → π → π) (num : ℕ) (p q : List (Option π))
    (h : (runCycles modules idxs chunks infer vstack num).2 = .ok (p, q)) :
    q = p := by
  unfold runCycles at h
  rcases hra : runAllCycles chunks infer vstack num with e | preds <;> rw [hra] at h
  · simp at h
  · rcases hsd : set_dropout_mode modules idxs false with ⟨m2, e2⟩
    rw [hsd] at h
    cases e2
    · simp at h
      rw [← h.1, ← h.2]
    · simp at h

/-- Line 380 of dropout.py returns `predictions_1, predictions_1`: a
successful `get_predictions` always returns the same cycle list twice. -/
lemma get_predictions_ok_eq {ρ π : Type} (modules : List Module) (X : MInput ρ)
    (idxs : List ℕ) (num spf : ℕ) (infer : Chunk ρ → Except PyError π)
    (vstack : π → π → π) (p q : List (Option π))
    (h : (get_predictions modules X idxs num spf infer vstack).2 = .ok (p, q)) :
    q = p := by
  unfold get_predictions at h
  rcases hs : set_dropout_mode modules idxs true with ⟨m1, e1⟩
  rw [hs] at h
  cases e1
  · cases X with
    | mapping entries => exact runCycles_ok_eq _ _ _ _ _ _ _ _ h
    | tensor t => exact runCycles_ok_eq _ _ _ _ _ _ _ _ h
    | other s => simp at h
  · simp at h

/-- Sum of a real list as a sum over its positions. -/
lemma list_sum_eq_fin_sum (v : List ℝ) : v.sum = ∑ i : Fin v.length, v.get i := by
  rw [← List.sum_ofFn, List.ofFn_get]

/-- Sum of a mapped real list as a sum over the positions of the original. -/
lemma list_map_sum_eq_fin_sum (v : List ℝ) (f : ℝ → ℝ) :
    (v.map f).sum = ∑ i : Fin v.length, f (v.get i) := by
  simp only [List.get_eq_getElem]
  rw [← List.sum_ofFn, List.ofFn_getElem_eq_map]

/-- Finite Jensen inequality for `negMulLog` with uniform weights: the mean of
the entropies is at most the entropy of the mean, on nonnegative inputs. -/
lemma negMulLog_mean_le (v : List ℝ) (hne : v ≠ []) (hpos : ∀ x ∈ v, 0 ≤ x) :
    (v.map Real.negMulLog).sum / (v.length : ℝ) ≤
      Real.negMulLog (v.sum / (v.length : ℝ)) := by
  have hlen : 0 < v.length := List.length_pos.mpr hne
  have hlenR : (0 : ℝ) < (v.length : ℝ) := by exact_mod_cast hlen
  have h := Real.concaveOn_negMulLog.le_map_sum
    (t := (Finset.univ : Finset (Fin v.length)))
    (w := fun _ => ((v.length : ℝ))⁻¹) (p := v.get)
    (fun i _ => by positivity)
    (by
      rw [Finset.sum_const, Finset.card_univ, Fintype.card_fin, nsmul_eq_mul]
      field_simp)
    (fun i _ => Set.mem_Ici.mpr (hpos _ (v.get_mem i i.isLt)))
  have e1 : ∑ i : Fin v.length, ((v.length : ℝ))⁻¹ • v.get i =
      v.sum / (v.length : ℝ) := by
    rw [← Finset.smul_sum, ← list_sum_eq_fin_sum, smul_eq_mul, inv_mul_eq_div]
  have e2 : ∑ i : Fin v.length, ((v.length : ℝ))⁻¹ • Real.negMulLog (v.get i) =
      (v.map Real.negMulLog).sum / (v.length : ℝ) := by
    rw [← Finset.smul_sum, ← list_map_sum_eq_fin_sum, smul_eq_mul, inv_mul_eq_div]
  rw [e1, e2] at h
  exact h

/-- A list whose entries all satisfy an existential `some` description is the
`some`-image of a real list with the described values. -/
lemma exists_map_some (P : ℝ → Prop) :
    ∀ l : List (Option ℝ), (∀ o ∈ l, ∃ x, o = some x ∧ P x) →
      ∃ v : List ℝ, l = v.map some ∧ ∀ x ∈ v, P x := by
  intro l
  induction l with
  | nil => exact fun _ => ⟨[], rfl, by simp⟩
  | cons o rest ih =>
    intro h
    obtain ⟨x, hx, hPx⟩ := h o (List.mem_cons_self o rest)
    obtain ⟨v, hv, hPv⟩ := ih fun o' ho' => h o' (List.mem_cons_of_mem o ho')
    refine ⟨x :: v, by rw [hx, hv]; rfl, ?_⟩
    intro y hy
    rcases List.mem_cons.mp hy with hyx | hyv
    · rw [hyx]; exact hPx
    · exact hPv y hyv

/-- The initial value is a lower bound of a left max-fold. -/
lemma le_foldl_max (l : List ℝ) : ∀ a : ℝ, a ≤ l.foldl max a := by
  induction l with
  | nil => exact fun a => le_refl a
  | cons x rest ih =>
    intro a
    calc a ≤ max a x := le_max_left a x
    _ ≤ rest.foldl max (max a x) := ih (max a x)

/-- A common upper bound of the initial value and all entries bounds a left
max-fold. -/
lemma foldl_max_le (l : List ℝ) :
    ∀ a b : ℝ, a ≤ b → (∀ x ∈ l, x ≤ b) → l.foldl max a ≤ b := by
  induction l with
  | nil => exact fun a b ha _ => ha
  | cons x rest ih =>
    intro a b ha hl
    exact ih (max a x) b (max_le ha (hl x (List.mem_cons_self x rest)))
      fun y hy => hl y (List.mem_cons_of_mem x hy)

/-- Class-axis NaN-aware sum of an all-`some` row. -/
lemma whereSum_classList_some {C : ℕ} (d : Fin C → ℝ) :
    whereSum (classList fun c => some (d c)) = ∑ c, d c := by
  unfold whereSum classList
  rw [List.filterMap_map,
    show ((id : Option ℝ → Option ℝ) ∘ fun c => some (d c)) = some ∘ d from rfl,
    List.filterMap_eq_map, Fin.sum_univ_def]

/-- Class-axis NaN-aware mean of an all-`some` row. -/
lemma whereMean_classList_some {C : ℕ} (hC : 0 < C) (d : Fin C → ℝ) :
    whereMean (classList fun c => some (d c)) = some ((∑ c, d c) / (C : ℝ)) := by
  unfold whereMean classList
  rw [List.filterMap_map,
    show ((id : Option ℝ → Option ℝ) ∘ fun c => some (d c)) = some ∘ d from rfl,
    List.filterMap_eq_map]
  rw [if_neg (by simp; omega)]
  rw [Fin.sum_univ_def]
  simp

/-- Stacking a constant cycle list gives constant trailing-axis slices. -/
lemma stackedAt_replicate {N C : ℕ} (T : ℕ) (A : Mat N C) (n : Fin N) (c : Fin C) :
    stackedAt (List.replicate T A) n c = List.replicate T (A n c) := by
  simp [stackedAt]

/-- NaN-aware sum over a constant axis. -/
lemma whereSum_replicate (T : ℕ) (o : Option ℝ) :
    whereSum (List.replicate T o) = T • o.getD 0 := by
  cases o with
  | none => simp [whereSum]
  | some x => simp [whereSum, List.sum_replicate]

/-- Class-axis NaN-aware sum of an all-zero row. -/
lemma whereSum_classList_zero {C : ℕ} :
    whereSum (classList fun _ : Fin C => some (0 : ℝ)) = 0 := by
  rw [whereSum_classList_some (d := fun _ => (0 : ℝ))]
  simp

/-- Class-axis NaN-aware mean of an all-zero row. -/
lemma whereMean_classList_zero {C : ℕ} (hC : 0 < C) :
    whereMean (classList fun _ : Fin C => some (0 : ℝ)) = some 0 := by
  rw [whereMean_classList_some hC (d := fun _ => (0 : ℝ))]
  simp

/-- Standard deviation of a constant all-`some` axis is zero. -/
lemma nstd_replicate_some (T : ℕ) (hT : 0 < T) (x : ℝ) :
    nstd (List.replicate T (some x)) = some 0 := by
  have hTne : (T : ℝ) ≠ 0 := by exact_mod_cast hT.ne'
  unfold nstd
  rw [if_neg (by simp; omega)]
  rw [List.filterMap_replicate_of_some (f := id) (a := some x) rfl]
  congr 1
  rw [List.length_replicate, List.sum_replicate, nsmul_eq_mul,
    mul_div_cancel_left₀ x hTne, List.map_replicate]
  simp [List.sum_replicate]

/-- NaN-aware sum of an all-`some` axis is the plain sum of the values. -/
lemma whereSum_map_some (w : List ℝ) : whereSum (w.map some) = w.sum := by
  unfold whereSum
  rw [List.filterMap_map,
    show ((id : Option ℝ → Option ℝ) ∘ (some : ℝ → Option ℝ)) = some from rfl,
    List.filterMap_some]

/-- Plain sum of an all-`some` axis. -/
lemma plainSum_map_some (w : List ℝ) : plainSum (w.map some) = some w.sum := by
  unfold plainSum
  rw [if_pos (by simp), List.filterMap_map,
    show ((id : Option ℝ → Option ℝ) ∘ (some : ℝ → Option ℝ)) = some from rfl,
    List.filterMap_some]

/-- The plain cycle-axis mean of a column whose entries are NaN or lie in
`[0, 1]` lies in `[0, 1]` whenever it is not NaN. -/
lemma plainMean_mem_unit (l : List (Option ℝ))
    (h : ∀ o ∈ l, o = none ∨ ∃ x, o = some x ∧ 0 ≤ x ∧ x ≤ 1)
    (m : ℝ) (hm : plainMean l = some m) : 0 ≤ m ∧ m ≤ 1 := by
  unfold plainMean at hm
  by_cases hlen : l.length = 0
  · rw [if_pos hlen] at hm
    cases hm
  · rw [if_neg hlen] at hm
    unfold plainSum at hm
    by_cases hall : l.all Option.isSome
    · rw [if_pos hall] at hm
      simp only [Option.map_some'] at hm
      have hmem : ∀ x ∈ l.filterMap id, 0 ≤ x ∧ x ≤ 1 := by
        intro x hx
        rw [List.mem_filterMap] at hx
        obtain ⟨o, ho, hox⟩ := hx
        rcases h o ho with hnone | ⟨y, hy, h0, h1⟩
        · rw [hnone] at hox
          cases hox
        · rw [hy] at hox
          cases hox
          exact ⟨h0, h1⟩
      have hsum0 : 0 ≤ (l.filterMap id).sum :=
        List.sum_nonneg fun x hx => (hmem x hx).1
      have hsum1 : (l.filterMap id).sum ≤ (l.filterMap id).length • (1 : ℝ) :=
        List.sum_le_card_nsmul _ _ fun x hx => (hmem x hx).2
      have hlenle : (l.filterMap id).length ≤ l.length :=
        List.length_filterMap_le id l
      have hlpos : (0 : ℝ) < (l.length : ℝ) := by
        exact_mod_cast Nat.pos_of_ne_zero hlen
      have hm2 : ((l.filterMap id).sum / (l.length : ℝ)) = m := Option.some.inj hm
      rw [← hm2]
      refine ⟨div_nonneg hsum0 (Nat.cast_nonneg _), ?_⟩
      rw [div_le_one hlpos]
      calc (l.filterMap id).sum ≤ (l.filterMap id).length • (1 : ℝ) := hsum1
      _ = ((l.filterMap id).length : ℝ) := by rw [nsmul_eq_mul, mul_one]
      _ ≤ (l.length : ℝ) := by exact_mod_cast hlenle
    · rw [if_neg hall] at hm
      cases hm

/-! ## Claims -/

/-- Claim C1 (status: code_bug).  The claim says every exit path of
`get_predictions` restores the targeted dropout layers to eval mode, even when
`classifier.estimator.infer` raises mid-cycle.  The source has no
`try`/`finally`: evaluating the model at a pool of one sample, one dropout
layer and an `infer` that raises shows the error propagating while the dropout
layer is left with `training = true`. -/
theorem C1_infer_error_leaves_dropout_in_train_mode :
    get_predictions (ρ := Unit) (π := Unit) [⟨"Dropout", false⟩]
        (.tensor [()]) [] 1 1
        (fun _ => .error (.runtimeError "forward pass failed")) (fun _ _ => ()) =
      ([⟨"Dropout", true⟩], .error (.runtimeError "forward pass failed")) := by
  rfl

/-- Claim C4 (status: confirmed).  With a non-empty index list whose indexes
all resolve, if some listed index is not a dropout layer then
`set_dropout_mode` raises (the spec's `ConfigurationError`, realized by the
source as `KeyError`) naming an offending index; no offending index is
silently skipped into a successful return. -/
theorem C4_bad_index_raises_configuration_error (modules : List Module)
    (idxs : List ℕ) (tm : Bool)
    (hrange : ∀ i ∈ idxs, i < modules.length)
    (hbad : ∃ i ∈ idxs, isDropoutAt modules i = false) :
    ∃ i ∈ idxs, isDropoutAt modules i = false ∧
      (set_dropout_mode modules idxs tm).2 = some (.keyError i) := by
  have hne : idxs.length ≠ 0 := by
    obtain ⟨i, hi, _⟩ := hbad
    cases idxs
    · cases hi
    · simp
  obtain ⟨i, hi, hf, heq⟩ := applyIndexes_error idxs modules tm hrange hbad
  refine ⟨i, hi, hf, ?_⟩
  rw [set_dropout_mode, if_pos hne]
  exact heq

/-- Witness for C4: a concrete model whose index 1 is a `Linear` layer. -/
theorem C4_witness :
    (∀ i ∈ [1], i < [Module.mk "Dropout" false, Module.mk "Linear" false].length) ∧
    (∃ i ∈ [1], isDropoutAt [Module.mk "Dropout" false, Module.mk "Linear" false] i = false) ∧
    ∃ i ∈ [1], isDropoutAt [Module.mk "Dropout" false, Module.mk "Linear" false] i = false ∧
      (set_dropout_mode [Module.mk "Dropout" false, Module.mk "Linear" false] [1] true).2 =
        some (.keyError i) :=
  ⟨by decide, by decide,
    C4_bad_index_raises_configuration_error _ _ true (by decide) (by decide)⟩

/-- Counterexample to claim C5 as stated: on an input that is neither a
mapping nor a tensor, `get_predictions` does fail, but with `RuntimeError`
(dropout.py line 319), which is not a `TypeError`-class error. -/
theorem C5_counterexample_runtime_not_type_error :
    raisesTypeErrorClass
        (get_predictions (ρ := Unit) (π := Unit) [] (.other "numpy.ndarray") [] 1 1
          (fun _ => .ok ()) (fun _ _ => ())).2 = false ∧
    (get_predictions (ρ := Unit) (π := Unit) [] (.other "numpy.ndarray") [] 1 1
        (fun _ => .ok ()) (fun _ _ => ())).2 =
      .error (.runtimeError "Error in model data type, only dict or tensors supported") :=
  ⟨rfl, rfl⟩

/-- Claim C5 as amended: provided the initial dropout-mode toggle succeeds
(that call runs first and can itself raise), `get_predictions` on an input
that is neither a mapping nor a tensor fails with the `RuntimeError` of
dropout.py line 319. -/
theorem C5_amended_unsupported_input_raises_runtime_error {ρ π : Type}
    (modules : List Module) (idxs : List ℕ) (num spf : ℕ)
    (infer : Chunk ρ → Except PyError π) (vstack : π → π → π) (s : String)
    (hset : (set_dropout_mode modules idxs true).2 = none) :
    (get_predictions modules (MInput.other s) idxs num spf infer vstack).2 =
      .error (.runtimeError "Error in model data type, only dict or tensors supported") := by
  rcases hs : set_dropout_mode modules idxs true with ⟨m1, e1⟩
  rw [hs] at hset
  simp only at hset
  subst hset
  simp [get_predictions, hs]

/-- Witness for the amended C5 at a concrete unsupported input. -/
theorem C5_amended_witness :
    (set_dropout_mode [] [] true).2 = none ∧
    (get_predictions (ρ := Unit) (π := Unit) [] (MInput.other "pandas.DataFrame") [] 2 3
        (fun _ => .ok ()) (fun _ _ => ())).2 =
      .error (.runtimeError "Error in model data type, only dict or tensors supported") :=
  ⟨rfl,
    C5_amended_unsupported_input_raises_runtime_error [] [] 2 3
      (fun _ => .ok ()) (fun _ _ => ()) "pandas.DataFrame" rfl⟩

/-- Counterexample to claim C10 as stated: on the DataFrame-first block list
`[DataFrame, "str"]` the claim asserts `data_hstack` returns `None`, but the
DataFrame branch evaluates `pd.concat(blocks, axis=1)` (data.py line 49),
which raises `TypeError` because the second block is not a Series/DataFrame;
the exception propagates instead of the fall-through `None`. -/
theorem C10_counterexample_dataframe_concat_raises :
    data_hstack [PyVal.dataFrame, PyVal.other "str"] =
      .error (.typeError "cannot concatenate object that is not a Series or DataFrame") ∧
    data_hstack [PyVal.dataFrame, PyVal.other "str"] ≠ .ok none := by
  constructor
  · rfl
  · intro h
    exact Except.noConfusion h

/-- Claim C10 as amended: for a non-empty block sequence with no sparse block
whose first element is neither an ndarray, nor a list, nor a tensor,
`data_hstack` returns `None` provided that, when the first element is a
DataFrame, every block is a DataFrame (so the evaluated-and-discarded
`pd.concat` succeeds); the DataFrame branch drops its `pd.concat` result and
the final `TypeError` is constructed but never raised.  Without that proviso
`pd.concat` itself raises, as the counterexample shows. -/
theorem C10_amended_data_hstack_returns_none (blocks : List PyVal)
    (hne : blocks ≠ [])
    (hnosparse : ∀ b ∈ blocks, b ≠ .sparse)
    (h1 : blocks.head? ≠ some .ndarray)
    (h2 : blocks.head? ≠ some .list)
    (h3 : blocks.head? ≠ some .tensor)
    (hdf : blocks.head? = some .dataFrame → ∀ b ∈ blocks, b = .dataFrame) :
    data_hstack blocks = .ok none := by
  match blocks, hne with
  | b0 :: bs, _ =>
    simp only [List.head?_cons, ne_eq, Option.some.injEq] at h1 h2 h3
    have hsp : ((b0 :: bs).any issparse) = false := by
      rw [List.any_eq_false]
      intro x hx
      have hx' := hnosparse x hx
      cases x <;> simp_all [issparse]
    have h0 : b0 ≠ .sparse := hnosparse b0 (List.mem_cons_self b0 bs)
    by_cases hb0 : b0 = .dataFrame
    · have hall : ((b0 :: bs).all isNDFrame) = true := by
        rw [List.all_eq_true]
        intro x hx
        rw [hdf (by simp [hb0]) x hx]
        rfl
      subst hb0
      simp [data_hstack, hsp, hall]
    · cases b0 <;> simp_all [data_hstack]

/-- Witness for the amended C10 with an all-DataFrame block list. -/
theorem C10_amended_witness :
    ([PyVal.dataFrame, PyVal.dataFrame] ≠ []) ∧
    (∀ b ∈ [PyVal.dataFrame, PyVal.dataFrame], b ≠ .sparse) ∧
    ([PyVal.dataFrame, PyVal.dataFrame].head? ≠ some .ndarray) ∧
    ([PyVal.dataFrame, PyVal.dataFrame].head? ≠ some .list) ∧
    ([PyVal.dataFrame, PyVal.dataFrame].head? ≠ some .tensor) ∧
    ([PyVal.dataFrame, PyVal.dataFrame].head? = some .dataFrame →
      ∀ b ∈ [PyVal.dataFrame, PyVal.dataFrame], b = .dataFrame) ∧
    data_hstack [PyVal.dataFrame, PyVal.dataFrame] = .ok none :=
  ⟨by decide, by decide, by decide, by decide, by decide, by decide,
    C10_amended_data_hstack_returns_none _ (by decide) (by decide) (by decide)
      (by decide) (by decide) (by decide)⟩

/-- Claim C9 (status: confirmed).  `mc_dropout_bald` runs the sampler once;
because `get_predictions` returns the same cycle list for both streams, the
averaged two-stream score vector `(metric(p₁) + metric(p₂)) / 2` collapses to
the metric applied once, and the whole strategy coincides — on every input,
both value and module state, error paths included — with the single-pass
implementation written from the spec. -/
theorem C9_two_stream_average_equals_single_pass {ρ : Type} {N C : ℕ}
    (modules : List Module) (X : MInput ρ) (n_instances : ℕ)
    (random_tie_break : Bool) (idxs : List ℕ) (num spf : ℕ)
    (infer : Chunk ρ → Except PyError (Mat N C))
    (vstack : Mat N C → Mat N C → Mat N C)
    (shuffle : List (Fin N) → List (Fin N)) :
    mc_dropout_bald modules X n_instances random_tie_break idxs num spf infer
        vstack shuffle =
      mc_dropout_bald_single modules X n_instances random_tie_break idxs num spf
        infer vstack shuffle := by
  unfold mc_dropout_bald mc_dropout_bald_single
  rcases hg : get_predictions modules X idxs num spf infer vstack with ⟨m1, r⟩
  cases r with
  | error e => rfl
  | ok pq =>
    rcases pq with ⟨p1, p2⟩
    have hq : p2 = p1 :=
      get_predictions_ok_eq modules X idxs num spf infer vstack p1 p2
        (by rw [hg])
    subst hq
    cases hseq : seqCycles p2 with
    | error e => simp [hseq]
    | ok q1 =>
      have havg : (fun n => (_bald_divergence q1 n + _bald_divergence q1 n) / 2) =
          fun n => _bald_divergence q1 n := by
        funext n
        ring
      simp only [hseq, havg]

/-- Claim C6 (status: confirmed, spec-modelled selection).  When sampling and
stacking succeed and `n_instances` exceeds the number of pool instances, the
single-metric strategy `mc_dropout_bald` fails with the spec's
`ConfigurationError` instead of returning a selection, under either tie-break
mode.  (`multi_argmax`/`shuffled_argmax` live in `modAL/utils/selection.py`,
absent from `src/`, and are modelled from the spec.) -/
theorem C6_n_instances_exceeding_pool_raises {ρ : Type} {N C : ℕ}
    (modules : List Module) (X : MInput ρ) (n_instances : ℕ)
    (random_tie_break : Bool) (idxs : List ℕ) (num spf : ℕ)
    (infer : Chunk ρ → Except PyError (Mat N C))
    (vstack : Mat N C → Mat N C → Mat N C)
    (shuffle : List (Fin N) → List (Fin N))
    (p1 p2 : List (Option (Mat N C))) (q1 : List (Mat N C))
    (hg : (get_predictions modules X idxs num spf infer vstack).2 = .ok (p1, p2))
    (hseq : seqCycles p1 = .ok q1)
    (hn : N < n_instances) :
    (mc_dropout_bald modules X n_instances random_tie_break idxs num spf infer
        vstack shuffle).2 =
      .error (.configurationError "n_instances exceeds pool size") := by
  have hq : p2 = p1 :=
    get_predictions_ok_eq modules X idxs num spf infer vstack p1 p2 hg
  subst hq
  unfold mc_dropout_bald
  rcases hg2 : get_predictions modules X idxs num spf infer vstack with ⟨m1, r⟩
  rw [hg2] at hg
  simp only at hg
  subst hg
  cases random_tie_break <;>
    simp [hseq, multi_argmax, shuffled_argmax, hn]

/-- Witness for C6: a one-instance pool queried for two instances. -/
theorem C6_witness :
    (get_predictions (ρ := Unit) (π := Mat 1 1) [] (.tensor [()]) [] 1 1
        (fun _ => .ok fun _ _ => some 1) (fun A _ => A)).2 =
      .ok ([some fun _ _ => some 1], [some fun _ _ => some 1]) ∧
    seqCycles [some (fun _ _ => some 1 : Mat 1 1)] = .ok [fun _ _ => some 1] ∧
    1 < 2 ∧
    (mc_dropout_bald (ρ := Unit) (N := 1) (C := 1) [] (.tensor [()]) 2 false [] 1 1
        (fun _ => .ok fun _ _ => some 1) (fun A _ => A) id).2 =
      .error (.configurationError "n_instances exceeds pool size") :=
  ⟨rfl, rfl, by decide,
    C6_n_instances_exceeding_pool_raises (ρ := Unit) (N := 1) (C := 1)
      [] (.tensor [()]) 2 false [] 1 1
      (fun _ => .ok fun _ _ => some 1) (fun A _ => A) id
      [some fun _ _ => some 1] [some fun _ _ => some 1] [fun _ _ => some 1]
      rfl rfl (by decide)⟩

/-- Claim C8 (status: confirmed).  When every cycle produces the identical
NaN-free prediction array (and the array has at least one class, with at
least one cycle, as `np.stack` and the class-axis mean require), BALD and the
mean standard deviation are zero for every instance. -/
theorem C8_identical_cycles_zero_scores {N C T : ℕ} (A : Mat N C)
    (hT : 0 < T) (hC : 0 < C) (hsome : ∀ n c, (A n c).isSome) :
    ∀ n, _bald_divergence (List.replicate T A) n = 0 ∧
      _mean_standard_deviation (List.replicate T A) n = some 0 := by
  intro n
  have hTR : ((T : ℝ)) ≠ 0 := by
    exact_mod_cast hT.ne'
  have hws1 : ∀ o : Option ℝ, whereSum [o] = o.getD 0 := by
    intro o
    cases o <;> simp [whereSum]
  have hkey : ∀ c : Fin C, ∃ x : ℝ, A n c = some x := fun c =>
    Option.isSome_iff_exists.mp (hsome n c)
  constructor
  · unfold _bald_divergence
    have hdiff : ∀ c : Fin C,
        osub (some (bald_g (List.replicate T A) n c))
          (some (bald_f (List.replicate T A) n c)) = some 0 := by
      intro c
      obtain ⟨x, hx⟩ := hkey c
      have hstack : stackedAt (List.replicate T A) n c = List.replicate T (some x) := by
        rw [stackedAt_replicate, hx]
      have hf : bald_f (List.replicate T A) n c = (entr (some x)).getD 0 := by
        unfold bald_f entropy_sum
        rw [hstack, List.map_replicate, whereSum_replicate, List.length_replicate,
          nsmul_eq_mul, mul_div_cancel_left₀ _ hTR]
      have havg : bald_avg (List.replicate T A) n c = some x := by
        unfold bald_avg plainSum
        rw [hstack, if_pos (by simp),
          List.filterMap_replicate_of_some (f := id) (a := some x) rfl,
          List.sum_replicate, List.length_replicate]
        simp only [Option.map_some', nsmul_eq_mul]
        rw [mul_div_cancel_left₀ _ hTR]
      have hg : bald_g (List.replicate T A) n c = (entr (some x)).getD 0 := by
        unfold bald_g entropy_sum
        rw [havg, List.map_cons, List.map_nil, hws1]
      rw [hf, hg]
      unfold osub
      simp
    rw [funext hdiff, whereSum_classList_zero]
  · unfold _mean_standard_deviation
    have hstd : ∀ c : Fin C, nstd (stackedAt (List.replicate T A) n c) = some 0 := by
      intro c
      obtain ⟨x, hx⟩ := hkey c
      rw [stackedAt_replicate, hx]
      exact nstd_replicate_some T hT x
    rw [funext hstd, whereMean_classList_zero hC]

/-- Witness for C8: two identical cycles of a one-instance, one-class pool. -/
theorem C8_witness :
    (0 < 2 ∧ 0 < 1 ∧
      ∀ (n c : Fin 1), ((fun _ _ => some (1 / 2) : Mat 1 1) n c).isSome) ∧
    _bald_divergence (List.replicate 2 (fun _ _ => some (1 / 2) : Mat 1 1)) 0 = 0 ∧
    _mean_standard_deviation (List.replicate 2 (fun _ _ => some (1 / 2) : Mat 1 1)) 0 =
      some 0 :=
  ⟨⟨by decide, by decide, fun _ _ => rfl⟩,
    C8_identical_cycles_zero_scores (fun _ _ => some (1 / 2)) (by decide) (by decide)
      (fun _ _ => rfl) 0⟩

/-- Counterexample to claim C2 as stated: on the two-cycle, one-instance,
one-class list with every prediction `1/2`, the source's `_entropy` (entropy
contributions summed along the cycle axis, then averaged along the class
axis) gives `2·negMulLog(1/2)`, while the claimed class-axis sum followed by
a cycle-axis mean (`entropySpec`) gives `negMulLog(1/2)`; the two differ
because `negMulLog(1/2) = (ln 2)/2 ≠ 0`. -/
theorem C2_counterexample_entropy_axes_swapped :
    _entropy [(fun _ _ => some (1 / 2) : Mat 1 1), fun _ _ => some (1 / 2)] 0 ≠
      entropySpec [(fun _ _ => some (1 / 2) : Mat 1 1), fun _ _ => some (1 / 2)] 0 := by
  have hlog : 0 < Real.log 2 := Real.log_pos (by norm_num)
  have hv : 0 < Real.negMulLog (1 / 2) := by
    have hdef : Real.negMulLog (1 / 2 : ℝ) = -(1 / 2 : ℝ) * Real.log (1 / 2) := rfl
    rw [hdef, one_div, Real.log_inv]
    nlinarith
  have hentr : entr (some (1 / 2 : ℝ)) = some (Real.negMulLog (1 / 2)) := by
    simp only [entr]
    norm_num
  have hes2 : entropy_sum [some (1 / 2 : ℝ), some (1 / 2)] =
      Real.negMulLog (1 / 2) + Real.negMulLog (1 / 2) := by
    unfold entropy_sum whereSum
    rw [List.map_cons, List.map_cons, List.map_nil, hentr]
    simp
  have hes1 : entropy_sum [some (1 / 2 : ℝ)] = Real.negMulLog (1 / 2) := by
    unfold entropy_sum whereSum
    rw [List.map_cons, List.map_nil, hentr]
    simp
  have hL : _entropy [(fun _ _ => some (1 / 2) : Mat 1 1), fun _ _ => some (1 / 2)] 0 =
      some (2 * Real.negMulLog (1 / 2)) := by
    unfold _entropy
    rw [whereMean_classList_some Nat.one_pos, Fin.sum_univ_one]
    have hstack : stackedAt [(fun _ _ => some (1 / 2) : Mat 1 1), fun _ _ => some (1 / 2)]
        0 0 = [some (1 / 2 : ℝ), some (1 / 2)] := by
      simp [stackedAt]
    rw [hstack, hes2]
    norm_num
    ring
  have hR : entropySpec [(fun _ _ => some (1 / 2) : Mat 1 1), fun _ _ => some (1 / 2)] 0 =
      some (Real.negMulLog (1 / 2)) := by
    unfold entropySpec
    have hcl : (classList fun c : Fin 1 =>
        (fun _ _ => some (1 / 2) : Mat 1 1) 0 c) = [some (1 / 2 : ℝ)] := by
      simp [classList, List.finRange_succ, List.finRange_zero]
    rw [List.map_cons, List.map_cons, List.map_nil, hcl, hes1]
    unfold whereMean
    simp
  rw [hL, hR]
  intro h
  have h2 := Option.some.inj h
  nlinarith

/-- Claim C2 as amended: `_entropy` computes, for each instance, the
per-class sums over the cycle axis of the entropy contributions (NaN entries
excluded), and then the NaN-aware mean across the class axis — the transpose
of the claimed reduction order. -/
theorem C2_amended_entropy_is_class_mean_of_cycle_sums {N C : ℕ}
    (proba : List (Mat N C)) (hC : 0 < C) :
    ∀ n, _entropy proba n =
      some ((∑ c, entropy_sum (stackedAt proba n c)) / (C : ℝ)) := by
  intro n
  unfold _entropy
  exact whereMean_classList_some hC fun c => entropy_sum (stackedAt proba n c)

/-- Witness for the amended C2 at a one-cycle, one-class list. -/
theorem C2_amended_witness :
    0 < 1 ∧
    _entropy [(fun _ _ => some (1 / 2) : Mat 1 1)] 0 =
      some ((∑ c : Fin 1,
          entropy_sum (stackedAt [(fun _ _ => some (1 / 2) : Mat 1 1)] 0 c)) /
        ((1 : ℕ) : ℝ)) :=
  ⟨Nat.one_pos,
    C2_amended_entropy_is_class_mean_of_cycle_sums _ Nat.one_pos 0⟩

/-- Claim C7 (status: confirmed).  On cycle lists whose entries are NaN or
probability-like values in `[0, 1]`, with no instance whose cycle-averaged
row is entirely NaN, `_variation_ratios` returns one minus the NaN-ignoring
class-axis maximum of the cycle-averaged prediction (an all-NaN row would
contribute the safe initial maximum `0`), and the result lies in `[0, 1]`. -/
theorem C7_variation_ratios_formula_and_bounds {N C : ℕ} (proba : List (Mat N C))
    (hvals : ∀ A ∈ proba, ∀ (n : Fin N) (c : Fin C),
      A n c = none ∨ ∃ x, A n c = some x ∧ 0 ≤ x ∧ x ≤ 1)
    ( _hrow : ∀ n : Fin N, ∃ c, (plainMean (stackedAt proba n c)).isSome) :
    ∀ n, _variation_ratios proba n =
        1 - whereAmax 0 (classList fun c => plainMean (stackedAt proba n c)) ∧
      0 ≤ _variation_ratios proba n ∧ _variation_ratios proba n ≤ 1 := by
  intro n
  have hM0 : 0 ≤ whereAmax 0 (classList fun c => plainMean (stackedAt proba n c)) :=
    le_foldl_max _ 0
  have hM1 : whereAmax 0 (classList fun c => plainMean (stackedAt proba n c)) ≤ 1 := by
    apply foldl_max_le _ _ _ zero_le_one
    intro x hx
    rw [List.mem_filterMap] at hx
    obtain ⟨o, ho, hox⟩ := hx
    unfold classList at ho
    rw [List.mem_map] at ho
    obtain ⟨c, _, hco⟩ := ho
    have hcol : ∀ o' ∈ stackedAt proba n c,
        o' = none ∨ ∃ y, o' = some y ∧ 0 ≤ y ∧ y ≤ 1 := by
      intro o' ho'
      unfold stackedAt at ho'
      rw [List.mem_map] at ho'
      obtain ⟨A, hA, hAo⟩ := ho'
      rw [← hAo]
      exact hvals A hA n c
    have hpm : plainMean (stackedAt proba n c) = some x := by
      rw [hco]
      exact hox
    exact (plainMean_mem_unit _ hcol x hpm).2
  refine ⟨rfl, ?_, ?_⟩
  · unfold _variation_ratios
    linarith
  · unfold _variation_ratios
    linarith

/-- Witness for C7: a one-cycle list with prediction `1/2` everywhere. -/
theorem C7_witness :
    (∀ A ∈ [(fun _ _ => some (1 / 2) : Mat 1 1)], ∀ (n c : Fin 1),
      A n c = none ∨ ∃ x, A n c = some x ∧ 0 ≤ x ∧ x ≤ 1) ∧
    (∀ n : Fin 1, ∃ c,
      (plainMean (stackedAt [(fun _ _ => some (1 / 2) : Mat 1 1)] n c)).isSome) ∧
    (_variation_ratios [(fun _ _ => some (1 / 2) : Mat 1 1)] 0 =
        1 - whereAmax 0 (classList fun c =>
          plainMean (stackedAt [(fun _ _ => some (1 / 2) : Mat 1 1)] 0 c)) ∧
      0 ≤ _variation_ratios [(fun _ _ => some (1 / 2) : Mat 1 1)] 0 ∧
      _variation_ratios [(fun _ _ => some (1 / 2) : Mat 1 1)] 0 ≤ 1) :=
  ⟨by
    intro B hB n c
    rw [List.mem_singleton] at hB
    subst hB
    exact Or.inr ⟨1 / 2, rfl, by norm_num, by norm_num⟩,
   fun n => ⟨0, by simp [plainMean, plainSum, stackedAt]⟩,
   C7_variation_ratios_formula_and_bounds _
    (by
      intro B hB n c
      rw [List.mem_singleton] at hB
      subst hB
      exact Or.inr ⟨1 / 2, rfl, by norm_num, by norm_num⟩)
    (fun n => ⟨0, by simp [plainMean, plainSum, stackedAt]⟩) 0⟩

/-- Claim C3 (status: confirmed).  When every cycle's per-instance prediction
is a probability distribution over the classes (entries present, nonnegative,
summing to one), `_bald_divergence` is nonnegative for every instance: per
class, the entropy contribution of the cycle-averaged prediction dominates
the average per-cycle entropy contribution by Jensen's inequality for the
concave `negMulLog`, and the per-instance score sums these differences. -/
theorem C3_bald_nonneg_on_probability_distributions {N C : ℕ}
    (proba : List (Mat N C)) (hne : proba ≠ [])
    (hprob : ∀ A ∈ proba, ∀ (n : Fin N) (c : Fin C), ∃ x, A n c = some x ∧ 0 ≤ x)
    ( _hsum : ∀ A ∈ proba, ∀ n : Fin N, (∑ c, (A n c).getD 0) = 1) :
    ∀ n, 0 ≤ _bald_divergence proba n := by
  intro n
  have hT : proba.length ≠ 0 := fun h => hne (List.length_eq_zero.mp h)
  have hstep : ∀ c : Fin C, bald_f proba n c ≤ bald_g proba n c := by
    intro c
    obtain ⟨v, hv, hvpos⟩ := exists_map_some (fun x => 0 ≤ x) (stackedAt proba n c)
      (by
        intro o ho
        unfold stackedAt at ho
        rw [List.mem_map] at ho
        obtain ⟨A, hA, hAo⟩ := ho
        obtain ⟨x, hx, hx0⟩ := hprob A hA n c
        exact ⟨x, by rw [← hAo, hx], hx0⟩)
    have hvlen : v.length = proba.length := by
      have h1 : (stackedAt proba n c).length = proba.length := by
        simp [stackedAt]
      rw [hv] at h1
      simpa using h1
    have hvne : v ≠ [] := by
      intro h
      rw [h] at hvlen
      exact hT hvlen.symm
    have hf : bald_f proba n c = (v.map Real.negMulLog).sum / (proba.length : ℝ) := by
      unfold bald_f entropy_sum
      rw [hv]
      have hcong : (v.map some).map entr = (v.map Real.negMulLog).map some := by
        rw [List.map_map, List.map_map]
        apply List.map_congr_left
        intro x hx
        show entr (some x) = some (Real.negMulLog x)
        simp only [entr]
        rw [if_neg (not_lt.mpr (hvpos x hx))]
      rw [hcong, whereSum_map_some]
    have havg : bald_avg proba n c = some (v.sum / (proba.length : ℝ)) := by
      unfold bald_avg
      rw [hv, plainSum_map_some]
      rfl
    have hg : bald_g proba n c = Real.negMulLog (v.sum / (proba.length : ℝ)) := by
      unfold bald_g entropy_sum
      rw [havg, List.map_cons, List.map_nil]
      have h0 : 0 ≤ v.sum / (proba.length : ℝ) :=
        div_nonneg (List.sum_nonneg hvpos) (Nat.cast_nonneg _)
      have hentr : entr (some (v.sum / (proba.length : ℝ))) =
          some (Real.negMulLog (v.sum / (proba.length : ℝ))) := by
        simp only [entr]
        rw [if_neg (not_lt.mpr h0)]
      rw [hentr]
      simp [whereSum]
    rw [hf, hg, ← hvlen]
    exact negMulLog_mean_le v hvne hvpos
  have hfun : (fun c : Fin C =>
      osub (some (bald_g proba n c)) (some (bald_f proba n c))) =
      fun c : Fin C => some (bald_g proba n c - bald_f proba n c) := rfl
  unfold _bald_divergence
  rw [hfun, whereSum_classList_some]
  exact Finset.sum_nonneg fun c _ => sub_nonneg.mpr (hstep c)

/-- Witness for C3: one cycle of the uniform two-class distribution. -/
theorem C3_witness :
    ([(fun _ _ => some (1 / 2) : Mat 1 2)] ≠ []) ∧
    (∀ A ∈ [(fun _ _ => some (1 / 2) : Mat 1 2)], ∀ (n : Fin 1) (c : Fin 2),
      ∃ x, A n c = some x ∧ 0 ≤ x) ∧
    (∀ A ∈ [(fun _ _ => some (1 / 2) : Mat 1 2)], ∀ n : Fin 1,
      (∑ c, (A n c).getD 0) = 1) ∧
    0 ≤ _bald_divergence [(fun _ _ => some (1 / 2) : Mat 1 2)] 0 :=
  ⟨List.cons_ne_nil _ _,
   by
    intro B hB n c
    rw [List.mem_singleton] at hB
    subst hB
    exact ⟨1 / 2, rfl, by norm_num⟩,
   by
    intro B hB n
    rw [List.mem_singleton] at hB
    subst hB
    rw [Fin.sum_univ_two]
    norm_num,
   C3_bald_nonneg_on_probability_distributions _ (List.cons_ne_nil _ _)
    (by
      intro B hB n c
      rw [List.mem_singleton] at hB
      subst hB
      exact ⟨1 / 2, rfl, by norm_num⟩)
    (by
      intro B hB n
      rw [List.mem_singleton] at hB
      subst hB
      rw [Fin.sum_univ_two]
      norm_num) 0⟩

end ModAL

